import Mathlib

/-!
# watchman: `FileDescriptor` and `openFileHandle`

A shallow embedding of `FileDescriptor.cpp` and `FileSystem.h`.

* The owning handle is a record holding the native descriptor `fd_`.
* Every native call the code issues is appended to a `Trace`, so that "how
  often was `::close` invoked, and on which value" is a statement about data.
* What the operating system answers is supplied by an `OS` record of
  functions; the code under study never looks inside it.
* Constants that come from system headers (`O_RDWR`, `ENOENT`, ...) and from
  `watchman.h` (`WATCHMAN_NAME_MAX`) are fields of a `Platform` record.
-/

namespace watchman

/-! ## Native calls and their log -/

/-- One native call issued by the code, with the arguments it was given. -/
inductive Syscall where
  | sys_close (fd : Int)
  | sys_open (path : String) (flags : Nat)
  | sys_readlink (path : String) (bufsiz : Nat)
  | sys_fstat (fd : Int)
  | sys_fcntl_getpath (fd : Int)
  deriving DecidableEq, Repr

/-- The native calls issued so far, oldest first. -/
abbrev Trace := List Syscall

/-- The descriptors handed to `::close`, oldest first. -/
def closeCalls (t : Trace) : List Int :=
  t.filterMap fun c =>
    match c with
    | .sys_close fd => some fd
    | _ => none

/-- The number of `readlink` calls in a trace. -/
def readlinkCalls (t : Trace) : Nat :=
  t.countP fun c =>
    match c with
    | .sys_readlink _ _ => true
    | _ => false

/-- The number of `fstat` calls in a trace. -/
def fstatCalls (t : Trace) : Nat :=
  t.countP fun c =>
    match c with
    | .sys_fstat _ => true
    | _ => false

/-! ## Errors -/

/-- The two `std::error_category` objects the code uses. -/
inductive ErrorCategory where
  | system
  | generic
  deriving DecidableEq, Repr

/-- A thrown `std::system_error`: the code, the category and the `what_arg`
the code passes to the constructor. -/
structure SystemError where
  code : Int
  category : ErrorCategory
  what : String
  deriving DecidableEq, Repr

/-! ## Platform constants and operating-system answers -/

/-- Which branch of the preprocessor conditional in `getOpenedPath` is compiled. -/
inductive Strategy where
  | fgetpath
  | linux
  | unsupported
  deriving DecidableEq, Repr

/-- Constants taken from system headers and from `watchman.h`. `O_PATH` is
optional because the source tests `#ifdef O_PATH`. -/
structure Platform where
  O_NOFOLLOW : Nat
  O_CLOEXEC : Nat
  O_PATH : Option Nat
  O_RDWR : Nat
  O_WRONLY : Nat
  O_RDONLY : Nat
  O_CREAT : Nat
  O_EXCL : Nat
  O_TRUNC : Nat
  O_ACCMODE : Nat
  ENOENT : Int
  ENOSYS : Int
  ENAMETOOLONG : Int
  WATCHMAN_NAME_MAX : Nat
  MAXPATHLEN : Nat
  strategy : Strategy

/-- Result of `open(2)`: the return value and `errno` after the call. -/
structure OpenResult where
  ret : Int
  errno : Int
  deriving DecidableEq, Repr

/-- Result of `readlink(2)`: the return value, `errno` after the call and the
bytes found in the caller's buffer after the call. -/
structure ReadlinkResult where
  ret : Int
  errno : Int
  buf : List Char
  deriving DecidableEq, Repr

/-- Result of `fstat(2)`: the return value, `errno` after the call and the
`st_size` field of the filled structure. -/
structure FstatResult where
  ret : Int
  errno : Int
  st_size : Nat
  deriving DecidableEq, Repr

/-- Result of `fcntl(fd, F_GETPATH, buf)`. -/
structure FcntlResult where
  ret : Int
  errno : Int
  buf : List Char
  deriving DecidableEq, Repr

/-- The answers of the operating system. Each call sees the calls issued
before it, so an answer may depend on the history. -/
structure OS where
  getpid : Int
  strerror : Int → String
  sysOpen : Trace → String → Nat → OpenResult
  sysReadlink : Trace → String → Nat → ReadlinkResult
  sysFstat : Trace → Int → FstatResult
  sysFcntlGetPath : Trace → Int → FcntlResult

/-! ## `FileSystem.h` : `OpenFileHandleOptions` -/

/-- The eight one-bit fields of `struct OpenFileHandleOptions`. -/
structure OpenFileHandleOptions where
  followSymlinks : Bool
  closeOnExec : Bool
  metaDataOnly : Bool
  readContents : Bool
  writeContents : Bool
  create : Bool
  exclusiveCreate : Bool
  truncate : Bool
  deriving DecidableEq, Repr

/-- The constructor `OpenFileHandleOptions()`. -/
def OpenFileHandleOptions.default : OpenFileHandleOptions :=
  { followSymlinks := false, closeOnExec := true, metaDataOnly := false,
    readContents := false, writeContents := false, create := false,
    exclusiveCreate := false, truncate := false }

/-- The preset `OpenFileHandleOptions::queryFileInfo()`. -/
def OpenFileHandleOptions.queryFileInfo : OpenFileHandleOptions :=
  let opts := OpenFileHandleOptions.default
  { opts with metaDataOnly := true }

/-- The wording "`metaDataOnly` is the only field that is set", read on the
eight bits of an options value: `metaDataOnly` is 1 and the other seven are 0. -/
def OpenFileHandleOptions.OnlyMetaDataOnlySet (o : OpenFileHandleOptions) : Prop :=
  o.metaDataOnly = true ∧ o.followSymlinks = false ∧ o.closeOnExec = false ∧
  o.readContents = false ∧ o.writeContents = false ∧ o.create = false ∧
  o.exclusiveCreate = false ∧ o.truncate = false

instance (o : OpenFileHandleOptions) : Decidable o.OnlyMetaDataOnlySet := by
  unfold OpenFileHandleOptions.OnlyMetaDataOnlySet; infer_instance

/-! ## `FileDescriptor.cpp` : the owning handle -/

/-- The class `FileDescriptor`: its only data member is `fd_`. -/
structure FileDescriptor where
  fd_ : Int
  deriving DecidableEq, Repr

namespace FileDescriptor

/-- The constructor `FileDescriptor(int fd)`. -/
def ofInt (fd : Int) : FileDescriptor :=
  { fd_ := fd }

/-- The constructor `FileDescriptor(int fd, const char* operation)`; `errno` is
the value of the C variable at the time of the call. -/
def ofIntChecked (os : OS) (errno : Int) (fd : Int) (operation : String) :
    Except SystemError FileDescriptor :=
  let self : FileDescriptor := { fd_ := fd }
  if self.fd_ = -1 then
    .error { code := errno, category := .system,
             what := operation ++ ": " ++ os.strerror errno }
  else
    .ok self

/-- The method `close()`. The return value of `::close` is discarded by the
source, so no answer of the operating system is consulted. -/
def close (self : FileDescriptor) (t : Trace) : FileDescriptor × Trace :=
  if self.fd_ ≠ -1 then
    ({ self with fd_ := -1 }, t ++ [Syscall.sys_close self.fd_])
  else
    (self, t)

/-- The method `release()`: the returned value, the handle afterwards and the
(untouched) trace. -/
def release (self : FileDescriptor) (t : Trace) : Int × FileDescriptor × Trace :=
  let result := self.fd_
  (result, { self with fd_ := -1 }, t)

/-- The destructor `~FileDescriptor()`: the object is gone afterwards, only the
trace remains. -/
def destroy (self : FileDescriptor) (t : Trace) : Trace :=
  (self.close t).2

/-- The move constructor `FileDescriptor(FileDescriptor&& other)`: the new
object, `other` afterwards and the trace. -/
def moveConstruct (other : FileDescriptor) (t : Trace) :
    FileDescriptor × FileDescriptor × Trace :=
  let r := other.release t
  ({ fd_ := r.1 }, r.2.1, r.2.2)

/-- The move assignment `operator=(FileDescriptor&& other)` for two different
objects: `self` afterwards, `other` afterwards and the trace. -/
def moveAssign (self other : FileDescriptor) (t : Trace) :
    FileDescriptor × FileDescriptor × Trace :=
  let c := self.close t
  let self1 : FileDescriptor := { c.1 with fd_ := other.fd_ }
  let other1 : FileDescriptor := { other with fd_ := -1 }
  (self1, other1, c.2)

end FileDescriptor

/-! ## A collection of live handles -/

/-- The live `FileDescriptor` objects of a program together with the trace. An
object is named by its position in `heap`. -/
structure State where
  heap : List FileDescriptor
  trace : Trace
  deriving DecidableEq, Repr

namespace State

/-- `heap[i].close()`. -/
def close (s : State) (i : Nat) : State :=
  match s.heap[i]? with
  | none => s
  | some h =>
    let c := h.close s.trace
    { heap := s.heap.set i c.1, trace := c.2 }

/-- `heap[i].release()`; the returned value goes to the caller. -/
def release (s : State) (i : Nat) : Int × State :=
  match s.heap[i]? with
  | none => (-1, s)
  | some h =>
    let r := h.release s.trace
    (r.1, { heap := s.heap.set i r.2.1, trace := r.2.2 })

/-- A new object is move-constructed from `heap[src]` and joins the collection. -/
def moveConstruct (s : State) (src : Nat) : State :=
  match s.heap[src]? with
  | none => s
  | some h =>
    let r := h.moveConstruct s.trace
    { heap := s.heap.set src r.2.1 ++ [r.1], trace := r.2.2 }

/-- `heap[dst] = std::move(heap[src])`, executed statement by statement on the
collection, so that `dst = src` (self-assignment) is covered as well. -/
def moveAssign (s : State) (dst src : Nat) : State :=
  if dst < s.heap.length ∧ src < s.heap.length then
    let s1 := s.close dst
    let v := (s1.heap.getD src { fd_ := -1 }).fd_
    let s2 : State := { s1 with heap := s1.heap.set dst { fd_ := v } }
    { s2 with heap := s2.heap.set src { fd_ := -1 } }
  else
    s

/-- `heap[i]` is destroyed: its destructor runs and the object leaves the
collection. -/
def destroy (s : State) (i : Nat) : State :=
  match s.heap[i]? with
  | none => s
  | some h => { heap := s.heap.eraseIdx i, trace := h.destroy s.trace }

end State

/-- The lifecycle operations on a collection of handles. -/
inductive Op where
  | moveConstruct (src : Nat)
  | moveAssign (dst src : Nat)
  | close (i : Nat)
  | release (i : Nat)
  | destroy (i : Nat)
  deriving DecidableEq, Repr

/-- One lifecycle operation. An operation naming an object that does not exist
is not a step of any program and leaves the state as it is. -/
def State.step (s : State) : Op → State
  | .moveConstruct src => s.moveConstruct src
  | .moveAssign dst src => s.moveAssign dst src
  | .close i => s.close i
  | .release i => (s.release i).2
  | .destroy i => s.destroy i

/-- A sequence of lifecycle operations, executed left to right. -/
def State.run (s : State) (ops : List Op) : State :=
  ops.foldl State.step s

/-- The native values owned by the handles of a collection. -/
def ownedValues (hs : List FileDescriptor) : List Int :=
  (hs.map fun h => h.fd_).filter fun v => v ≠ -1

/-- No native value is owned by two handles of the collection. -/
def ExclusivelyOwned (hs : List FileDescriptor) : Prop :=
  (ownedValues hs).Nodup

instance (hs : List FileDescriptor) : Decidable (ExclusivelyOwned hs) := by
  unfold ExclusivelyOwned; infer_instance

/-- The native values held by the handles of a collection, sentinel included. -/
def heldValues (hs : List FileDescriptor) : List Int :=
  hs.map fun h => h.fd_

/-- The invariant behind exclusive ownership: a native value other than the
sentinel is, taken together, held by the handles and handed to `::close` at
most once; the sentinel is never handed to `::close`. -/
def State.Inv (s : State) : Prop :=
  (∀ v : Int, v ≠ -1 → (heldValues s.heap).count v + (closeCalls s.trace).count v ≤ 1) ∧
  (closeCalls s.trace).count (-1) = 0

/-! ## `FileDescriptor.cpp` : `openFileHandle` -/

/-- Modelled from the spec: `to<std::string>(a, b)` is a string-formatting helper
of the repository that is not among the sources; it renders its arguments one
after the other, so that the error "carries the path". -/
def toStdString (a b : String) : String :=
  a ++ b

/-- The value of the local `flags` in `openFileHandle` (lines 79 to 90). Where
the platform does not define `O_PATH` the `metaDataOnly` term is not compiled. -/
def openFlags (p : Platform) (opts : OpenFileHandleOptions) : Nat :=
  (if !opts.followSymlinks then p.O_NOFOLLOW else 0) |||
  (if opts.closeOnExec then p.O_CLOEXEC else 0) |||
  (match p.O_PATH with
   | some o_path => if opts.metaDataOnly then o_path else 0
   | none => 0) |||
  (if opts.readContents && opts.writeContents then p.O_RDWR
   else if opts.writeContents then p.O_WRONLY
   else if opts.readContents then p.O_RDONLY else 0) |||
  (if opts.create then p.O_CREAT else 0) |||
  (if opts.exclusiveCreate then p.O_EXCL else 0) |||
  (if opts.truncate then p.O_TRUNC else 0)

/-- The function `openFileHandle(path, opts)`. -/
def openFileHandle (p : Platform) (os : OS) (path : String)
    (opts : OpenFileHandleOptions) (t : Trace) :
    Except SystemError FileDescriptor × Trace :=
  let flags := openFlags p opts
  let r := os.sysOpen t path flags
  let t1 := t ++ [Syscall.sys_open path flags]
  let fd := r.ret
  if fd = -1 then
    let err := r.errno
    (.error { code := err, category := .generic, what := toStdString "open: " path }, t1)
  else
    (.ok (FileDescriptor.ofInt fd), t1)

/-! ## `FileDescriptor.cpp` : `getOpenedPath` -/

/-- Modelled from the spec: `w_string` is "an opaque immutable
byte-sequence-with-length type"; its declaration is not among the sources. -/
structure w_string where
  bytes : List Char
  deriving DecidableEq, Repr

/-- Modelled from the spec: the constructor `w_string(buf, len)` keeps exactly
the first `len` bytes of `buf`. -/
def w_string.ofBuf (buf : List Char) (len : Int) : w_string :=
  { bytes := buf.take len.toNat }

/-- Modelled from the spec: the constructor `w_string(buf)` reads a
NUL-terminated C string. -/
def w_string.ofCStr (buf : List Char) : w_string :=
  { bytes := buf.takeWhile fun c => c ≠ Char.ofNat 0 }

/-- The C call `snprintf(dst, size, ...)`: at most `size - 1` bytes of the
formatted text are stored. -/
def snprintf (size : Nat) (formatted : String) : String :=
  String.mk (formatted.data.take (size - 1))

/-- The local `procpath` of `getOpenedPath`:
`snprintf(procpath, 1024, "/proc/%d/fd/%d", getpid(), fd_)`. -/
def procpath (pid fd : Int) : String :=
  snprintf 1024 ("/proc/" ++ toString pid ++ "/fd/" ++ toString fd)

/-- The `F_GETPATH` branch of `getOpenedPath`. -/
def FileDescriptor.getOpenedPathFGetPath (os : OS) (self : FileDescriptor) (t : Trace) :
    Except SystemError w_string × Trace :=
  let r := os.sysFcntlGetPath t self.fd_
  let t1 := t ++ [Syscall.sys_fcntl_getpath self.fd_]
  if r.ret = -1 then
    (.error { code := r.errno, category := .generic, what := "fcntl for getOpenedPath" }, t1)
  else
    (.ok (w_string.ofCStr r.buf), t1)

/-- The `__linux__` branch of `getOpenedPath` (lines 122 to 160). -/
def FileDescriptor.getOpenedPathLinux (p : Platform) (os : OS) (self : FileDescriptor)
    (t : Trace) : Except SystemError w_string × Trace :=
  let procpath := procpath os.getpid self.fd_
  let r1 := os.sysReadlink t procpath p.WATCHMAN_NAME_MAX
  let t1 := t ++ [Syscall.sys_readlink procpath p.WATCHMAN_NAME_MAX]
  let len := r1.ret
  if len ≥ 0 then
    (.ok (w_string.ofBuf r1.buf len), t1)
  else if r1.errno = p.ENOENT then
    (.error { code := p.ENOSYS, category := .generic,
              what := "getOpenedPath: need /proc to be mounted!" }, t1)
  else if r1.errno ≠ p.ENAMETOOLONG then
    (.error { code := r1.errno, category := .generic,
              what := "readlink for getOpenedPath" }, t1)
  else
    let st := os.sysFstat t1 self.fd_
    let t2 := t1 ++ [Syscall.sys_fstat self.fd_]
    if st.ret ≠ 0 then
      (.error { code := st.errno, category := .generic,
                what := "fstat for getOpenedPath" }, t2)
    else
      let size := st.st_size
      let r2 := os.sysReadlink t2 procpath (size + 1)
      let t3 := t2 ++ [Syscall.sys_readlink procpath (size + 1)]
      let len := r2.ret
      if len ≥ 0 then
        (.ok (w_string.ofBuf r2.buf len), t3)
      else
        (.error { code := r2.errno, category := .generic,
                  what := "readlink for getOpenedPath" }, t3)

/-- The method `getOpenedPath() const`: the outcome, the handle afterwards
and the trace. -/
def FileDescriptor.getOpenedPath (p : Platform) (os : OS) (self : FileDescriptor)
    (t : Trace) : Except SystemError w_string × FileDescriptor × Trace :=
  match p.strategy with
  | .fgetpath =>
    let r := self.getOpenedPathFGetPath os t
    (r.1, self, r.2)
  | .linux =>
    let r := self.getOpenedPathLinux p os t
    (r.1, self, r.2)
  | .unsupported =>
    (.error { code := p.ENOSYS, category := .generic,
              what := "getOpenedPath not implemented on this platform" }, self, t)

/-! ## A kernel with the documented behaviour of `readlink(2)` -/

/-- The part of a kernel that `getOpenedPath` talks to: the symbolic links by
name (the entries of `/proc/<pid>/fd` among them) and, for each open
descriptor, the size of the file it refers to. -/
structure Kernel where
  pid : Int
  links : String → Option (List Char)
  sizes : Int → Option Nat
  EBADF : Int

/-- POSIX `readlink(path, buf, bufsiz)`: the contents of the link are placed in
the buffer and their number is returned; contents that do not fit are
truncated to `bufsiz` bytes without any error. A name that is no link fails
with `ENOENT`. -/
def Kernel.readlink (k : Kernel) (p : Platform) (path : String) (bufsiz : Nat) :
    ReadlinkResult :=
  match k.links path with
  | none => { ret := -1, errno := p.ENOENT, buf := [] }
  | some target =>
    { ret := ((target.take bufsiz).length : Nat), errno := 0, buf := target.take bufsiz }

/-- POSIX `fstat(fd, &st)`: `st_size` is the size of the file the descriptor
refers to. -/
def Kernel.fstat (k : Kernel) (fd : Int) : FstatResult :=
  match k.sizes fd with
  | none => { ret := -1, errno := k.EBADF, st_size := 0 }
  | some n => { ret := 0, errno := 0, st_size := n }

/-- The operating-system answers given by a kernel; only the calls of
`getOpenedPath` on the `/proc` strategy are of interest. -/
def Kernel.toOS (k : Kernel) (p : Platform) : OS :=
  { getpid := k.pid
    strerror := fun _ => ""
    sysOpen := fun _ _ _ => { ret := -1, errno := p.ENOENT }
    sysReadlink := fun _ path bufsiz => k.readlink p path bufsiz
    sysFstat := fun _ fd => k.fstat fd
    sysFcntlGetPath := fun _ _ => { ret := -1, errno := p.ENOSYS, buf := [] } }

/-- The constants of Linux on x86-64 (`asm-generic/fcntl.h`, `errno.h`); the
buffer bound is a parameter. -/
def linuxPlatform (nameMax : Nat) : Platform :=
  { O_NOFOLLOW := 0x20000, O_CLOEXEC := 0x80000, O_PATH := some 0x200000,
    O_RDWR := 2, O_WRONLY := 1, O_RDONLY := 0,
    O_CREAT := 0x40, O_EXCL := 0x80, O_TRUNC := 0x200, O_ACCMODE := 3,
    ENOENT := 2, ENOSYS := 38, ENAMETOOLONG := 36,
    WATCHMAN_NAME_MAX := nameMax, MAXPATHLEN := 4096, strategy := .linux }

/-- The layout of the open flags that POSIX systems share: the three access
modes live inside the mask `O_ACCMODE`, are told apart by it, `O_RDONLY` is
zero, and no other flag touches the mask. -/
def Platform.PosixFlagLayout (p : Platform) : Prop :=
  p.O_RDONLY = 0 ∧
  p.O_WRONLY &&& p.O_ACCMODE = p.O_WRONLY ∧
  p.O_RDWR &&& p.O_ACCMODE = p.O_RDWR ∧
  p.O_WRONLY ≠ 0 ∧ p.O_RDWR ≠ 0 ∧ p.O_WRONLY ≠ p.O_RDWR ∧
  p.O_NOFOLLOW &&& p.O_ACCMODE = 0 ∧
  p.O_CLOEXEC &&& p.O_ACCMODE = 0 ∧
  (match p.O_PATH with
   | some o_path => o_path &&& p.O_ACCMODE = 0
   | none => True) ∧
  p.O_CREAT &&& p.O_ACCMODE = 0 ∧
  p.O_EXCL &&& p.O_ACCMODE = 0 ∧
  p.O_TRUNC &&& p.O_ACCMODE = 0

/-- A path of `n` bytes: `/` followed by `n - 1` letters. -/
def longPath (n : Nat) : List Char :=
  '/' :: List.replicate (n - 1) 'a'

/-- A kernel in which process 4242 has descriptor 3 open on an empty file
whose path has 600 bytes. -/
def demoKernel : Kernel :=
  { pid := 4242
    links := fun q => if q = "/proc/4242/fd/3" then some (longPath 600) else none
    sizes := fun fd => if fd = 3 then some 0 else none
    EBADF := 9 }

/-! # Theorems -/

/-! ## Helper lemmas on traces -/

theorem closeCalls_append (t u : Trace) :
    closeCalls (t ++ u) = closeCalls t ++ closeCalls u := by
  simp [closeCalls, List.filterMap_append]

theorem closeCalls_close (fd : Int) : closeCalls [Syscall.sys_close fd] = [fd] := by
  simp [closeCalls]

theorem fd_after_close (h : FileDescriptor) (t : Trace) : (h.close t).1.fd_ = -1 := by
  unfold FileDescriptor.close
  split <;> simp_all

theorem trace_after_close (h : FileDescriptor) (t : Trace) :
    (h.close t).2 = t ++ (if h.fd_ = -1 then [] else [Syscall.sys_close h.fd_]) := by
  unfold FileDescriptor.close
  split <;> simp_all

theorem close_sentinel (t : Trace) :
    ({ fd_ := -1 } : FileDescriptor).close t = ({ fd_ := -1 }, t) := by
  simp [FileDescriptor.close]

/-! ## The owning handle -/

/-- C1: for every native value `v` and every history `t`, `FileDescriptor(v)`
followed by `release()` returns `v`, leaves `fd_ = -1` and issues no native
call at all; closing or destroying the handle afterwards issues none either. -/
theorem release_after_construct (v : Int) (t : Trace) :
    ((FileDescriptor.ofInt v).release t).1 = v ∧
    ((FileDescriptor.ofInt v).release t).2.1.fd_ = -1 ∧
    ((FileDescriptor.ofInt v).release t).2.2 = t ∧
    (((FileDescriptor.ofInt v).release t).2.1.close t).2 = t ∧
    ((FileDescriptor.ofInt v).release t).2.1.destroy t = t ∧
    closeCalls (((FileDescriptor.ofInt v).release t).2.1.destroy
      ((FileDescriptor.ofInt v).release t).2.2) = closeCalls t := by
  simp [FileDescriptor.ofInt, FileDescriptor.release, FileDescriptor.destroy,
    FileDescriptor.close]

/-- C2: `close()` is idempotent. It is a total function (nothing can be
raised); a second `close()` changes neither the handle nor the trace; the
handle ends with `fd_ = -1`; and over both calls `::close` was invoked once,
on the owned value, when the handle owned one, and not at all otherwise. -/
theorem close_idempotent (h : FileDescriptor) (t : Trace) :
    (h.close t).1.close (h.close t).2 = h.close t ∧
    ((h.close t).1.close (h.close t).2).1.fd_ = -1 ∧
    closeCalls ((h.close t).1.close (h.close t).2).2 =
      closeCalls t ++ (if h.fd_ = -1 then [] else [h.fd_]) := by
  unfold FileDescriptor.close
  by_cases hfd : h.fd_ = -1
  · simp [hfd]
  · simp [hfd, closeCalls_append, closeCalls_close]

/-- C3: move assignment of `A` (owning `a`) into a different object `B`
(owning `w`) leaves `B` owning `a`, leaves `A` with `fd_ = -1`, and adds to
the `::close` calls exactly `w` when `w` is not the sentinel and nothing when
it is. -/
theorem moveAssign_closes_destination_once (a w : Int) (t : Trace) :
    ((FileDescriptor.mk w).moveAssign (FileDescriptor.mk a) t).1.fd_ = a ∧
    ((FileDescriptor.mk w).moveAssign (FileDescriptor.mk a) t).2.1.fd_ = -1 ∧
    closeCalls ((FileDescriptor.mk w).moveAssign (FileDescriptor.mk a) t).2.2 =
      closeCalls t ++ (if w = -1 then [] else [w]) ∧
    (w ≠ -1 → ((FileDescriptor.mk w).moveAssign (FileDescriptor.mk a) t).2.2 =
      t ++ [Syscall.sys_close w]) ∧
    (w = -1 → ((FileDescriptor.mk w).moveAssign (FileDescriptor.mk a) t).2.2 = t) := by
  unfold FileDescriptor.moveAssign FileDescriptor.close
  by_cases hw : w = -1
  · simp [hw]
  · simp [hw, closeCalls_append, closeCalls_close]

/-- C5: the checked constructor fails exactly on the sentinel. From `-1` it
raises an error with the current `errno`, whose text is the operation label
followed by `": "` and the error text, and so starts with the label; from any
other value it yields a handle owning that value. -/
theorem ofIntChecked_fails_iff_sentinel (os : OS) (e v : Int) (operation : String) :
    ((∃ err, FileDescriptor.ofIntChecked os e v operation = .error err) ↔ v = -1) ∧
    FileDescriptor.ofIntChecked os e (-1) operation =
      .error { code := e, category := .system,
               what := operation ++ ": " ++ os.strerror e } ∧
    operation.data <+: (operation ++ ": " ++ os.strerror e).data ∧
    (v ≠ -1 → FileDescriptor.ofIntChecked os e v operation = .ok { fd_ := v }) := by
  refine ⟨?_, ?_, ?_, ?_⟩
  · unfold FileDescriptor.ofIntChecked
    by_cases hv : v = -1 <;> simp [hv]
  · simp [FileDescriptor.ofIntChecked]
  · simp [String.data_append, List.append_assoc]
  · intro hv
    simp [FileDescriptor.ofIntChecked, hv]

/-! ## The open options and the open operation -/

/-- C7 as stated fails: the options returned by `queryFileInfo()` have two bits
set, `closeOnExec` (inherited from the default constructor) and
`metaDataOnly`, so `metaDataOnly` is not the only field that is set. -/
theorem queryFileInfo_also_closeOnExec :
    OpenFileHandleOptions.queryFileInfo.closeOnExec = true ∧
    OpenFileHandleOptions.queryFileInfo.metaDataOnly = true ∧
    ¬ OpenFileHandleOptions.queryFileInfo.OnlyMetaDataOnlySet := by
  decide

/-- C7, amended: a default-constructed `OpenFileHandleOptions` has `closeOnExec`
set and the other seven fields clear; `queryFileInfo()` returns the default
options with `metaDataOnly` set in addition, so that exactly `closeOnExec`
and `metaDataOnly` are set. -/
theorem default_and_queryFileInfo_fields :
    OpenFileHandleOptions.default =
      { followSymlinks := false, closeOnExec := true, metaDataOnly := false,
        readContents := false, writeContents := false, create := false,
        exclusiveCreate := false, truncate := false } ∧
    OpenFileHandleOptions.queryFileInfo =
      { followSymlinks := false, closeOnExec := true, metaDataOnly := true,
        readContents := false, writeContents := false, create := false,
        exclusiveCreate := false, truncate := false } ∧
    OpenFileHandleOptions.queryFileInfo =
      { OpenFileHandleOptions.default with metaDataOnly := true } := by
  refine ⟨rfl, rfl, rfl⟩

/-- C8: `openFileHandle` issues one `open` with the translated flags and fails
exactly when that call returns `-1`. Then it raises a generic-category error
with the `errno` of the call and the text `"open: "` followed by the path, and
no handle exists; otherwise it returns a handle owning the returned value. -/
theorem openFileHandle_outcome (p : Platform) (os : OS) (path : String)
    (opts : OpenFileHandleOptions) (t : Trace) :
    (openFileHandle p os path opts t).2 = t ++ [Syscall.sys_open path (openFlags p opts)] ∧
    ((∃ err, (openFileHandle p os path opts t).1 = .error err) ↔
      (os.sysOpen t path (openFlags p opts)).ret = -1) ∧
    ((os.sysOpen t path (openFlags p opts)).ret = -1 →
      (openFileHandle p os path opts t).1 =
        .error { code := (os.sysOpen t path (openFlags p opts)).errno,
                 category := .generic, what := "open: " ++ path }) ∧
    path.data <:+ ("open: " ++ path).data ∧
    ((os.sysOpen t path (openFlags p opts)).ret ≠ -1 →
      (openFileHandle p os path opts t).1 =
        .ok { fd_ := (os.sysOpen t path (openFlags p opts)).ret }) := by
  have hsuffix : path.data <:+ ("open: " ++ path).data :=
    ⟨"open: ".data, by simp [String.data_append]⟩
  unfold openFileHandle
  by_cases h : (os.sysOpen t path (openFlags p opts)).ret = -1
  · refine ⟨?_, ?_, ?_, hsuffix, ?_⟩ <;> simp [h, toStdString]
  · refine ⟨?_, ?_, ?_, hsuffix, ?_⟩ <;> simp [h, toStdString, FileDescriptor.ofInt]

/-- C8 at a concrete input: on a system whose `open` fails with `ENOENT`,
opening `/nonexistent` with the default options raises the generic error 2. -/
theorem openFileHandle_outcome_witness :
    (openFileHandle (linuxPlatform 4096) (demoKernel.toOS (linuxPlatform 4096))
        "/nonexistent" OpenFileHandleOptions.default []).1 =
      .error { code := 2, category := .generic, what := "open: /nonexistent" } :=
  (openFileHandle_outcome (linuxPlatform 4096) (demoKernel.toOS (linuxPlatform 4096))
    "/nonexistent" OpenFileHandleOptions.default []).2.2.1 rfl

/-! ## The translation of the options -/

theorem ite_land_mask (c : Bool) (x m : Nat) (h : x &&& m = 0) :
    (if c = true then x else 0) &&& m = 0 := by
  cases c <;> simp [h]

theorem land_self_of_lor (a b c : Nat) : (a ||| (b ||| c)) &&& b = b := by
  apply Nat.eq_of_testBit_eq
  intro i
  simp only [Nat.testBit_and, Nat.testBit_or]
  cases a.testBit i <;> cases b.testBit i <;> cases c.testBit i <;> rfl

/-- The access-mode bits of the flags are those of the access-mode term. -/
theorem openFlags_accmode (p : Platform) (hp : p.PosixFlagLayout)
    (opts : OpenFileHandleOptions) :
    openFlags p opts &&& p.O_ACCMODE =
      (if opts.readContents && opts.writeContents then p.O_RDWR
       else if opts.writeContents then p.O_WRONLY
       else if opts.readContents then p.O_RDONLY else 0) &&& p.O_ACCMODE := by
  obtain ⟨_, _, _, _, _, _, hnf, hce, hpath, hcr, hex, htr⟩ := hp
  have h1 : (if (!opts.followSymlinks) = true then p.O_NOFOLLOW else 0) &&& p.O_ACCMODE = 0 :=
    ite_land_mask _ _ _ hnf
  have h2 := ite_land_mask opts.closeOnExec _ _ hce
  have h3 : (match p.O_PATH with
      | some o_path => if opts.metaDataOnly = true then o_path else 0
      | none => 0) &&& p.O_ACCMODE = 0 := by
    cases hpo : p.O_PATH with
    | none => simp
    | some o =>
      rw [hpo] at hpath
      exact ite_land_mask _ _ _ hpath
  have h5 := ite_land_mask opts.create _ _ hcr
  have h6 := ite_land_mask opts.exclusiveCreate _ _ hex
  have h7 := ite_land_mask opts.truncate _ _ htr
  unfold openFlags
  simp only [Nat.and_distrib_right, h1, h2, h3, h5, h6, h7, Nat.zero_or, Nat.or_zero]

/-- C6: on a platform with the POSIX layout of the open flags, the
access-mode bits of the flags computed by `openFileHandle` are `O_RDWR` when
`readContents` and `writeContents` are both set, `O_WRONLY` when only
`writeContents` is set and `O_RDONLY` when `writeContents` is clear, whatever
the other six fields hold; with both clear and `metaDataOnly` set the flags
contain `O_PATH` where it is defined and the access mode is neither
`O_WRONLY` nor `O_RDWR`. -/
theorem openFlags_access_mode (p : Platform) (hp : p.PosixFlagLayout)
    (opts : OpenFileHandleOptions) :
    (opts.readContents = true → opts.writeContents = true →
      openFlags p opts &&& p.O_ACCMODE = p.O_RDWR) ∧
    (opts.readContents = false → opts.writeContents = true →
      openFlags p opts &&& p.O_ACCMODE = p.O_WRONLY) ∧
    (opts.writeContents = false →
      openFlags p opts &&& p.O_ACCMODE = p.O_RDONLY) ∧
    (opts.readContents = false → opts.writeContents = false → opts.metaDataOnly = true →
      (∀ o_path, p.O_PATH = some o_path → openFlags p opts &&& o_path = o_path) ∧
      openFlags p opts &&& p.O_ACCMODE ≠ p.O_WRONLY ∧
      openFlags p opts &&& p.O_ACCMODE ≠ p.O_RDWR) := by
  have hacc := openFlags_accmode p hp opts
  obtain ⟨hro, hwo, hrw, hwo0, hrw0, _, _⟩ := hp
  refine ⟨?_, ?_, ?_, ?_⟩
  · intro hr hw
    rw [hacc]; simp [hr, hw, hrw]
  · intro hr hw
    rw [hacc]; simp [hr, hw, hwo]
  · intro hw
    rw [hacc]
    cases hr : opts.readContents <;> simp [hw, hro]
  · intro hr hw hm
    refine ⟨?_, ?_, ?_⟩
    · intro o ho
      unfold openFlags
      simp only [ho, hm, if_true]
      simp only [Nat.or_assoc]
      rw [← Nat.or_assoc]
      exact land_self_of_lor _ _ _
    · rw [hacc]; simp [hr, hw]; exact fun h => hwo0 h.symm
    · rw [hacc]; simp [hr, hw]; exact fun h => hrw0 h.symm

theorem linuxPlatform_posixFlagLayout (n : Nat) : (linuxPlatform n).PosixFlagLayout := by
  simp only [Platform.PosixFlagLayout, linuxPlatform]
  decide

/-- C6 at a concrete input: on Linux, options asking for reading and writing
translate to flags whose access mode is `O_RDWR`. -/
theorem openFlags_access_mode_witness :
    openFlags (linuxPlatform 4096)
        { OpenFileHandleOptions.default with readContents := true, writeContents := true }
      &&& (linuxPlatform 4096).O_ACCMODE = (linuxPlatform 4096).O_RDWR :=
  (openFlags_access_mode (linuxPlatform 4096) (linuxPlatform_posixFlagLayout 4096)
    { OpenFileHandleOptions.default with readContents := true, writeContents := true }).1
    rfl rfl

/-! ## Path resolution -/

theorem readlinkCalls_append (t u : Trace) :
    readlinkCalls (t ++ u) = readlinkCalls t + readlinkCalls u := by
  simp [readlinkCalls, List.countP_append]

/-- The retry path of the `/proc` strategy, for any operating system: when the
first `readlink` fails with `ENAMETOOLONG` (and `ENAMETOOLONG` is not
`ENOENT`) and `fstat` succeeds, the second `readlink` is given a buffer of
`st_size + 1` bytes, where `st_size` is what `fstat` on the descriptor itself
reported, and its outcome is the outcome of the call. -/
theorem getOpenedPathLinux_retry (p : Platform) (os : OS) (self : FileDescriptor) (t : Trace)
    (hlen : (os.sysReadlink t (procpath os.getpid self.fd_) p.WATCHMAN_NAME_MAX).ret < 0)
    (herr : (os.sysReadlink t (procpath os.getpid self.fd_) p.WATCHMAN_NAME_MAX).errno
      = p.ENAMETOOLONG)
    (hne : p.ENAMETOOLONG ≠ p.ENOENT)
    (hst : (os.sysFstat (t ++ [Syscall.sys_readlink (procpath os.getpid self.fd_)
      p.WATCHMAN_NAME_MAX]) self.fd_).ret = 0) :
    (self.getOpenedPathLinux p os t).2 =
      t ++ [Syscall.sys_readlink (procpath os.getpid self.fd_) p.WATCHMAN_NAME_MAX] ++
        [Syscall.sys_fstat self.fd_] ++
        [Syscall.sys_readlink (procpath os.getpid self.fd_)
          ((os.sysFstat (t ++ [Syscall.sys_readlink (procpath os.getpid self.fd_)
            p.WATCHMAN_NAME_MAX]) self.fd_).st_size + 1)] := by
  unfold FileDescriptor.getOpenedPathLinux
  have h1 : ¬ (os.sysReadlink t (procpath os.getpid self.fd_) p.WATCHMAN_NAME_MAX).ret ≥ 0 := by
    omega
  simp only [h1, herr, hne, hst, if_false, ne_eq, not_true_eq_false]
  split <;> rfl

/-- C10: on the `/proc` strategy the first `readlink` decides the outcome. If
it returns `n ≥ 0` the result is the first `n` bytes of the buffer; if it
fails with `ENOENT` the error is generic with code `ENOSYS` and the text about
`/proc`; if it fails with an error that is neither `ENOENT` nor
`ENAMETOOLONG` the error is generic, carries that code and is named
"readlink for getOpenedPath". In each of these three cases only that one
native call is made. In every case the handle is unchanged and the calls
added to the trace contain at most two `readlink`s. -/
theorem getOpenedPath_first_readlink (p : Platform) (hs : p.strategy = .linux) (os : OS)
    (self : FileDescriptor) (t : Trace) :
    (0 ≤ (os.sysReadlink t (procpath os.getpid self.fd_) p.WATCHMAN_NAME_MAX).ret →
      (self.getOpenedPath p os t).1 = .ok (w_string.mk (List.take
        (os.sysReadlink t (procpath os.getpid self.fd_) p.WATCHMAN_NAME_MAX).ret.toNat
        (os.sysReadlink t (procpath os.getpid self.fd_) p.WATCHMAN_NAME_MAX).buf)) ∧
      (self.getOpenedPath p os t).2.2 =
        t ++ [Syscall.sys_readlink (procpath os.getpid self.fd_) p.WATCHMAN_NAME_MAX]) ∧
    ((os.sysReadlink t (procpath os.getpid self.fd_) p.WATCHMAN_NAME_MAX).ret < 0 →
      (os.sysReadlink t (procpath os.getpid self.fd_) p.WATCHMAN_NAME_MAX).errno = p.ENOENT →
      (self.getOpenedPath p os t).1 = .error (SystemError.mk p.ENOSYS .generic
        "getOpenedPath: need /proc to be mounted!") ∧
      (self.getOpenedPath p os t).2.2 =
        t ++ [Syscall.sys_readlink (procpath os.getpid self.fd_) p.WATCHMAN_NAME_MAX]) ∧
    ((os.sysReadlink t (procpath os.getpid self.fd_) p.WATCHMAN_NAME_MAX).ret < 0 →
      (os.sysReadlink t (procpath os.getpid self.fd_) p.WATCHMAN_NAME_MAX).errno ≠ p.ENOENT →
      (os.sysReadlink t (procpath os.getpid self.fd_) p.WATCHMAN_NAME_MAX).errno
        ≠ p.ENAMETOOLONG →
      (self.getOpenedPath p os t).1 = .error (SystemError.mk
        (os.sysReadlink t (procpath os.getpid self.fd_) p.WATCHMAN_NAME_MAX).errno
        .generic "readlink for getOpenedPath") ∧
      (self.getOpenedPath p os t).2.2 =
        t ++ [Syscall.sys_readlink (procpath os.getpid self.fd_) p.WATCHMAN_NAME_MAX]) ∧
    (self.getOpenedPath p os t).2.1 = self ∧
    (∃ added, (self.getOpenedPath p os t).2.2 = t ++ added ∧ readlinkCalls added ≤ 2) := by
  unfold FileDescriptor.getOpenedPath
  simp only [hs]
  unfold FileDescriptor.getOpenedPathLinux
  refine ⟨?_, ?_, ?_, trivial, ?_⟩
  · intro h
    simp [h, w_string.ofBuf]
  · intro h he
    have h1 : ¬ (os.sysReadlink t (procpath os.getpid self.fd_) p.WATCHMAN_NAME_MAX).ret ≥ 0 := by
      omega
    simp [h1, he]
  · intro h he hn
    have h1 : ¬ (os.sysReadlink t (procpath os.getpid self.fd_) p.WATCHMAN_NAME_MAX).ret ≥ 0 := by
      omega
    simp [h1, he, hn]
  · simp only []
    split
    · exact ⟨_, rfl, by simp [readlinkCalls]⟩
    · split
      · exact ⟨_, rfl, by simp [readlinkCalls]⟩
      · split
        · exact ⟨_, rfl, by simp [readlinkCalls]⟩
        · split
          · exact ⟨_, by rw [List.append_assoc], by simp [readlinkCalls]⟩
          · split
            · exact ⟨_, by rw [List.append_assoc, List.append_assoc], by simp [readlinkCalls]⟩
            · exact ⟨_, by rw [List.append_assoc, List.append_assoc], by simp [readlinkCalls]⟩

/-- C10 at a concrete input: descriptor 5 has no entry under `/proc`, the
first `readlink` fails with `ENOENT`, and the error raised is `ENOSYS`. -/
theorem getOpenedPath_first_readlink_witness :
    ((FileDescriptor.mk 5).getOpenedPath (linuxPlatform 512)
        (demoKernel.toOS (linuxPlatform 512)) []).1 =
      .error (SystemError.mk 38 .generic "getOpenedPath: need /proc to be mounted!") :=
  ((getOpenedPath_first_readlink (linuxPlatform 512) rfl (demoKernel.toOS (linuxPlatform 512))
    (FileDescriptor.mk 5) []).2.1 (by decide) (by decide)).1

/-- With the documented behaviour of `readlink(2)`, a handle bound to a path
longer than `WATCHMAN_NAME_MAX` is resolved to the first `WATCHMAN_NAME_MAX`
bytes of that path by the first `readlink`; no further call is made. -/
theorem getOpenedPath_truncates (k : Kernel) (p : Platform) (hs : p.strategy = .linux)
    (fd : Int) (path : List Char) (t : Trace)
    (hbound : k.links (procpath k.pid fd) = some path)
    (hlong : p.WATCHMAN_NAME_MAX < path.length) :
    (FileDescriptor.mk fd).getOpenedPath p (k.toOS p) t =
      (.ok (w_string.mk (path.take p.WATCHMAN_NAME_MAX)), FileDescriptor.mk fd,
        t ++ [Syscall.sys_readlink (procpath k.pid fd) p.WATCHMAN_NAME_MAX]) ∧
    path.take p.WATCHMAN_NAME_MAX ≠ path := by
  constructor
  · unfold FileDescriptor.getOpenedPath
    simp only [hs]
    unfold FileDescriptor.getOpenedPathLinux
    simp [Kernel.toOS, Kernel.readlink, hbound, w_string.ofBuf]
    exact Or.inl (Nat.le_of_lt hlong)
  · intro h
    have hl := congrArg List.length h
    rw [List.length_take] at hl
    omega

theorem longPath_length (n : Nat) (hn : 0 < n) : (longPath n).length = n := by
  simp [longPath]; omega

theorem longPath_take (m n : Nat) (hm : 0 < m) (hmn : m ≤ n) :
    (longPath n).take m = longPath m := by
  obtain ⟨m', rfl⟩ : ∃ m', m = m' + 1 := ⟨m - 1, by omega⟩
  simp only [longPath, List.take_succ_cons, List.take_replicate, Nat.add_sub_cancel]
  congr 2
  omega

/-- C9 fails on the code: descriptor 3 is bound to a path of 600 bytes, the
buffer holds 512. `getOpenedPath` returns the first 512 bytes only, which is
not the bound path, after a single `readlink` and without any `fstat`. -/
theorem getOpenedPath_long_path_is_cut :
    demoKernel.links (procpath demoKernel.pid 3) = some (longPath 600) ∧
    (longPath 600).length = 600 ∧
    (linuxPlatform 512).WATCHMAN_NAME_MAX = 512 ∧
    (FileDescriptor.mk 3).getOpenedPath (linuxPlatform 512)
        (demoKernel.toOS (linuxPlatform 512)) [] =
      (.ok (w_string.mk (longPath 512)), FileDescriptor.mk 3,
        [Syscall.sys_readlink "/proc/4242/fd/3" 512]) ∧
    longPath 512 ≠ longPath 600 ∧
    readlinkCalls ((FileDescriptor.mk 3).getOpenedPath (linuxPlatform 512)
        (demoKernel.toOS (linuxPlatform 512)) []).2.2 = 1 ∧
    fstatCalls ((FileDescriptor.mk 3).getOpenedPath (linuxPlatform 512)
        (demoKernel.toOS (linuxPlatform 512)) []).2.2 = 0 := by
  have hp : procpath demoKernel.pid 3 = "/proc/4242/fd/3" := by decide
  have hb : demoKernel.links (procpath demoKernel.pid 3) = some (longPath 600) := by
    rw [hp]; rfl
  have hlen : (longPath 600).length = 600 := longPath_length 600 (by decide)
  have hcut := getOpenedPath_truncates demoKernel (linuxPlatform 512) rfl 3 (longPath 600) [] hb
    (by rw [hlen]; decide)
  have htake : (longPath 600).take 512 = longPath 512 := longPath_take 512 600 (by decide) (by decide)
  have hrun : (FileDescriptor.mk 3).getOpenedPath (linuxPlatform 512)
        (demoKernel.toOS (linuxPlatform 512)) [] =
      (.ok (w_string.mk (longPath 512)), FileDescriptor.mk 3,
        [Syscall.sys_readlink "/proc/4242/fd/3" 512]) := by
    rw [hcut.1, hp]
    simp only [linuxPlatform, htake, List.nil_append]
  refine ⟨hb, hlen, rfl, hrun, ?_, ?_, ?_⟩
  · intro h
    have hl := congrArg List.length h
    rw [hlen, longPath_length 512 (by decide)] at hl
    exact absurd hl (by decide)
  · rw [hrun]; simp [readlinkCalls]
  · rw [hrun]; simp [fstatCalls]

/-! ## Exclusive ownership -/

theorem count_set_transfer (hs : List FileDescriptor) (i : Nat) (h : FileDescriptor)
    (hget : hs[i]? = some h) (x v : Int) :
    (heldValues (hs.set i { fd_ := x })).count v + (if h.fd_ = v then 1 else 0) =
      (heldValues hs).count v + (if x = v then 1 else 0) := by
  induction hs generalizing i with
  | nil => simp at hget
  | cons a tl ih =>
    cases i with
    | zero =>
      simp only [List.getElem?_cons_zero, Option.some.injEq] at hget
      subst hget
      simp only [heldValues, List.set_cons_zero, List.map_cons, List.count_cons, beq_iff_eq]
      omega
    | succ j =>
      simp only [List.getElem?_cons_succ] at hget
      have := ih j hget
      simp only [heldValues, List.set_cons_succ, List.map_cons, List.count_cons] at this ⊢
      omega

theorem count_eraseIdx_transfer (hs : List FileDescriptor) (i : Nat) (h : FileDescriptor)
    (hget : hs[i]? = some h) (v : Int) :
    (heldValues (hs.eraseIdx i)).count v + (if h.fd_ = v then 1 else 0) =
      (heldValues hs).count v := by
  induction hs generalizing i with
  | nil => simp at hget
  | cons a tl ih =>
    cases i with
    | zero =>
      simp only [List.getElem?_cons_zero, Option.some.injEq] at hget
      subst hget
      simp only [heldValues, List.eraseIdx_cons_zero, List.map_cons, List.count_cons, beq_iff_eq]
    | succ j =>
      simp only [List.getElem?_cons_succ] at hget
      have := ih j hget
      simp only [heldValues, List.eraseIdx_cons_succ, List.map_cons, List.count_cons] at this ⊢
      omega

theorem count_closeCalls_close (t : Trace) (w v : Int) :
    (closeCalls (t ++ [Syscall.sys_close w])).count v =
      (closeCalls t).count v + (if w = v then 1 else 0) := by
  simp [closeCalls_append, closeCalls_close, List.count_cons, List.count_nil]

theorem State.close_none (s : State) (i : Nat) (hget : s.heap[i]? = none) :
    s.close i = s := by
  simp [State.close, hget]

theorem State.close_heap (s : State) (i : Nat) (h : FileDescriptor)
    (hget : s.heap[i]? = some h) : (s.close i).heap = s.heap.set i { fd_ := -1 } := by
  simp only [State.close, hget, FileDescriptor.close]
  split <;> rename_i hfd
  · rfl
  · have hh : h = { fd_ := -1 } := by
      cases h; simp_all
    simp [hh]

theorem State.close_trace (s : State) (i : Nat) (h : FileDescriptor)
    (hget : s.heap[i]? = some h) :
    (s.close i).trace = s.trace ++ (if h.fd_ = -1 then [] else [Syscall.sys_close h.fd_]) := by
  simp only [State.close, hget]
  exact trace_after_close h s.trace

theorem State.close_length (s : State) (i : Nat) : (s.close i).heap.length = s.heap.length := by
  cases hget : s.heap[i]? with
  | none => rw [State.close_none s i hget]
  | some h => rw [State.close_heap s i h hget, List.length_set]

theorem State.close_getElem (s : State) (i : Nat) (h : FileDescriptor)
    (hget : s.heap[i]? = some h) : (s.close i).heap[i]? = some { fd_ := -1 } := by
  rw [State.close_heap s i h hget]
  have hi : i < s.heap.length := by
    rcases List.getElem?_eq_some.mp hget with ⟨hi, _⟩
    exact hi
  simp [List.getElem?_set, hi]

theorem State.Inv_close (s : State) (i : Nat) (hinv : s.Inv) : (s.close i).Inv := by
  cases hget : s.heap[i]? with
  | none => rw [State.close_none s i hget]; exact hinv
  | some h =>
    obtain ⟨h1, h2⟩ := hinv
    unfold State.Inv
    rw [State.close_heap s i h hget, State.close_trace s i h hget]
    constructor
    · intro v hv
      have ht := count_set_transfer s.heap i h hget (-1) v
      have hb := h1 v hv
      have hv' : ¬ ((-1 : Int) = v) := fun e => hv e.symm
      rw [if_neg hv'] at ht
      by_cases hfd : h.fd_ = -1
      · simp only [hfd, if_true, List.append_nil] at ht ⊢
        omega
      · simp only [hfd, if_false]
        rw [count_closeCalls_close]
        omega
    · by_cases hfd : h.fd_ = -1
      · simpa [hfd] using h2
      · simp only [hfd, if_false]
        rw [count_closeCalls_close, if_neg hfd]
        omega

theorem State.Inv_release (s : State) (i : Nat) (hinv : s.Inv) : (s.release i).2.Inv := by
  cases hget : s.heap[i]? with
  | none => simpa [State.release, hget] using hinv
  | some h =>
    obtain ⟨h1, h2⟩ := hinv
    simp only [State.release, hget, FileDescriptor.release, State.Inv]
    refine ⟨?_, h2⟩
    intro v hv
    have ht := count_set_transfer s.heap i h hget (-1) v
    have hb := h1 v hv
    have hv' : ¬ ((-1 : Int) = v) := fun e => hv e.symm
    rw [if_neg hv'] at ht
    omega

theorem State.Inv_moveConstruct (s : State) (src : Nat) (hinv : s.Inv) :
    (s.moveConstruct src).Inv := by
  cases hget : s.heap[src]? with
  | none => simpa [State.moveConstruct, hget] using hinv
  | some h =>
    obtain ⟨h1, h2⟩ := hinv
    simp only [State.moveConstruct, hget, FileDescriptor.moveConstruct,
      FileDescriptor.release, State.Inv]
    refine ⟨?_, h2⟩
    intro v hv
    have ht := count_set_transfer s.heap src h hget (-1) v
    have hb := h1 v hv
    have hv' : ¬ ((-1 : Int) = v) := fun e => hv e.symm
    rw [if_neg hv'] at ht
    simp only [heldValues, List.map_append, List.map_cons, List.map_nil, List.count_append,
      List.count_cons, List.count_nil, beq_iff_eq] at ht hb ⊢
    omega

theorem State.Inv_destroy (s : State) (i : Nat) (hinv : s.Inv) : (s.destroy i).Inv := by
  cases hget : s.heap[i]? with
  | none => simpa [State.destroy, hget] using hinv
  | some h =>
    obtain ⟨h1, h2⟩ := hinv
    simp only [State.destroy, hget, FileDescriptor.destroy, State.Inv]
    rw [trace_after_close h s.trace]
    constructor
    · intro v hv
      have ht := count_eraseIdx_transfer s.heap i h hget v
      have hb := h1 v hv
      by_cases hfd : h.fd_ = -1
      · simp only [hfd, if_true, List.append_nil]
        omega
      · simp only [hfd, if_false]
        rw [count_closeCalls_close]
        omega
    · by_cases hfd : h.fd_ = -1
      · simpa [hfd] using h2
      · simp only [hfd, if_false]
        rw [count_closeCalls_close, if_neg hfd]
        omega

theorem State.Inv_moveAssign (s : State) (dst src : Nat) (hinv : s.Inv) :
    (s.moveAssign dst src).Inv := by
  unfold State.moveAssign
  split
  · rename_i hguard
    obtain ⟨hd, hsrc⟩ := hguard
    have hinv1 := State.Inv_close s dst hinv
    obtain ⟨hdst, hgd⟩ : ∃ hdst, s.heap[dst]? = some hdst :=
      ⟨s.heap[dst], List.getElem?_eq_getElem hd⟩
    have hd1 := State.close_getElem s dst hdst hgd
    have hlen := State.close_length s dst
    obtain ⟨o, hgo⟩ : ∃ o, (s.close dst).heap[src]? = some o :=
      ⟨(s.close dst).heap[src], List.getElem?_eq_getElem (by omega)⟩
    have hv0 : ((s.close dst).heap.getD src { fd_ := -1 }).fd_ = o.fd_ := by
      simp [List.getD_eq_getElem?_getD, hgo]
    simp only [hv0]
    have hg2 : ∃ o2, ((s.close dst).heap.set dst { fd_ := o.fd_ })[src]? = some o2 ∧
        o2.fd_ = o.fd_ := by
      by_cases he : dst = src
      · subst he
        exact ⟨{ fd_ := o.fd_ }, by simp [List.getElem?_set, hlen, hd], rfl⟩
      · exact ⟨o, by simp [List.getElem?_set, he, hgo], rfl⟩
    obtain ⟨o2, hgo2, ho2⟩ := hg2
    obtain ⟨h1, h2⟩ := hinv1
    refine ⟨?_, h2⟩
    intro v hv
    have hv' : ¬ ((-1 : Int) = v) := fun e => hv e.symm
    have ta := count_set_transfer (s.close dst).heap dst { fd_ := -1 } hd1 o.fd_ v
    have tb := count_set_transfer ((s.close dst).heap.set dst { fd_ := o.fd_ }) src o2 hgo2
      (-1) v
    have hb := h1 v hv
    simp only [if_neg hv', ho2] at ta tb
    show (heldValues (((s.close dst).heap.set dst { fd_ := o.fd_ }).set src { fd_ := -1 })).count v
      + (closeCalls (s.close dst).trace).count v ≤ 1
    omega
  · exact hinv

/-- On two different objects of a collection the statement-by-statement move
assignment is the move assignment of the two objects. -/
theorem State.moveAssign_of_ne (s : State) (dst src : Nat) (hne : dst ≠ src)
    (b a : FileDescriptor) (hb : s.heap[dst]? = some b) (ha : s.heap[src]? = some a) :
    (s.moveAssign dst src).heap =
      (s.heap.set dst (b.moveAssign a s.trace).1).set src (b.moveAssign a s.trace).2.1 ∧
    (s.moveAssign dst src).trace = (b.moveAssign a s.trace).2.2 := by
  have hd : dst < s.heap.length := (List.getElem?_eq_some.mp hb).1
  have hs : src < s.heap.length := (List.getElem?_eq_some.mp ha).1
  have hgo : (s.close dst).heap[src]? = some a := by
    rw [State.close_heap s dst b hb]
    simp [List.getElem?_set, hne, ha]
  have hv0 : ((s.close dst).heap.getD src { fd_ := -1 }).fd_ = a.fd_ := by
    simp [List.getD_eq_getElem?_getD, hgo]
  unfold State.moveAssign
  rw [if_pos ⟨hd, hs⟩]
  rw [State.close_heap s dst b hb] at hv0
  simp only [State.close_heap s dst b hb, State.close_trace s dst b hb, hv0,
    FileDescriptor.moveAssign, trace_after_close, List.set_set, and_self]

theorem State.Inv_step (s : State) (op : Op) (hinv : s.Inv) : (s.step op).Inv := by
  cases op with
  | moveConstruct src => exact State.Inv_moveConstruct s src hinv
  | moveAssign dst src => exact State.Inv_moveAssign s dst src hinv
  | close i => exact State.Inv_close s i hinv
  | release i => exact State.Inv_release s i hinv
  | destroy i => exact State.Inv_destroy s i hinv

theorem State.Inv_run (ops : List Op) (s : State) (hinv : s.Inv) : (s.run ops).Inv := by
  induction ops generalizing s with
  | nil => exact hinv
  | cons op rest ih => exact ih (s.step op) (State.Inv_step s op hinv)

theorem count_ownedValues (hs : List FileDescriptor) (v : Int) :
    (ownedValues hs).count v = if v = -1 then 0 else (heldValues hs).count v := by
  unfold ownedValues heldValues
  by_cases hv : v = -1
  · rw [if_pos hv]
    apply List.count_eq_zero_of_not_mem
    simp [List.mem_filter, hv]
  · rw [if_neg hv]
    exact List.count_filter (by simpa using hv)

theorem Inv_of_exclusivelyOwned (hs : List FileDescriptor) (h : ExclusivelyOwned hs) :
    State.Inv { heap := hs, trace := [] } := by
  refine ⟨?_, by simp [closeCalls]⟩
  intro v hv
  have hc := List.nodup_iff_count_le_one.mp h v
  rw [count_ownedValues, if_neg hv] at hc
  simpa [closeCalls] using hc

theorem exclusivelyOwned_of_Inv (s : State) (hinv : s.Inv) : ExclusivelyOwned s.heap := by
  apply List.nodup_iff_count_le_one.mpr
  intro v
  rw [count_ownedValues]
  split
  · exact Nat.zero_le _
  · rename_i hv
    have := hinv.1 v hv
    omega

theorem closeCalls_nodup_of_Inv (s : State) (hinv : s.Inv) : (closeCalls s.trace).Nodup := by
  apply List.nodup_iff_count_le_one.mpr
  intro v
  by_cases hv : v = -1
  · rw [hv, hinv.2]; exact Nat.zero_le _
  · have := hinv.1 v hv
    omega

theorem closed_not_owned_of_Inv (s : State) (hinv : s.Inv) (v : Int)
    (hv : v ∈ closeCalls s.trace) : v ∉ ownedValues s.heap := by
  have hpos : 0 < (closeCalls s.trace).count v := List.count_pos_iff.mpr hv
  have hne : v ≠ -1 := by
    intro e
    rw [e, hinv.2] at hpos
    exact absurd hpos (by decide)
  have hb := hinv.1 v hne
  intro hmem
  have hown : 0 < (ownedValues s.heap).count v := List.count_pos_iff.mpr hmem
  rw [count_ownedValues, if_neg hne] at hown
  omega

/-- C4: from any collection of handles whose owned (non-sentinel) values are
pairwise distinct, and a fresh log of native calls, every sequence of
lifecycle operations (move construction, move assignment between any two
handles of the collection, the same handle included, `close`, `release`,
destruction) ends in a collection whose owned values are pairwise distinct;
no value was handed to `::close` twice; and no value handed to `::close` is
still owned by a handle. -/
theorem lifecycle_keeps_ownership_exclusive (hs : List FileDescriptor)
    (h : ExclusivelyOwned hs) (ops : List Op) :
    ExclusivelyOwned (State.run { heap := hs, trace := [] } ops).heap ∧
    (closeCalls (State.run { heap := hs, trace := [] } ops).trace).Nodup ∧
    (∀ v ∈ closeCalls (State.run { heap := hs, trace := [] } ops).trace,
      v ∉ ownedValues (State.run { heap := hs, trace := [] } ops).heap) := by
  have hinv := State.Inv_run ops { heap := hs, trace := [] } (Inv_of_exclusivelyOwned hs h)
  exact ⟨exclusivelyOwned_of_Inv _ hinv, closeCalls_nodup_of_Inv _ hinv,
    closed_not_owned_of_Inv _ hinv⟩

/-- C4 at a concrete input: three handles owning 3, 4 and nothing; the second
is moved into the first (closing 3), assigned to itself, a fourth handle is
move-constructed from the first and then closed, and the third is destroyed. -/
theorem lifecycle_keeps_ownership_exclusive_witness :
    ExclusivelyOwned [FileDescriptor.mk 3, FileDescriptor.mk 4, FileDescriptor.mk (-1)] ∧
    State.run { heap := [FileDescriptor.mk 3, FileDescriptor.mk 4, FileDescriptor.mk (-1)],
                trace := [] }
        [Op.moveAssign 0 1, Op.moveAssign 1 1, Op.moveConstruct 0, Op.close 3, Op.destroy 2] =
      { heap := [FileDescriptor.mk (-1), FileDescriptor.mk (-1), FileDescriptor.mk (-1)],
        trace := [Syscall.sys_close 3, Syscall.sys_close 4] } ∧
    (closeCalls (State.run
        { heap := [FileDescriptor.mk 3, FileDescriptor.mk 4, FileDescriptor.mk (-1)],
          trace := [] }
        [Op.moveAssign 0 1, Op.moveAssign 1 1, Op.moveConstruct 0, Op.close 3,
          Op.destroy 2]).trace).Nodup :=
  ⟨by decide, by decide,
    (lifecycle_keeps_ownership_exclusive
      [FileDescriptor.mk 3, FileDescriptor.mk 4, FileDescriptor.mk (-1)] (by decide)
      [Op.moveAssign 0 1, Op.moveAssign 1 1, Op.moveConstruct 0, Op.close 3,
        Op.destroy 2]).2.1⟩

end watchman
